import Mathlib

/-!
Verification of the Smart Warehouse Allocation System's optimization core.

The definitions below are a shallow embedding of the Python source
(`app_v2.py`, `app.py`, `db.py`).  Floating-point quantities are modelled
as rationals.  Pandas dataframes are modelled as lists of structures; a
dataframe lookup `df[df[col] == v].values[0] if ... else default` becomes a
`filter`/`head?`/`getD` chain.  The scipy `linprog` call is modelled as an
abstract solver outcome: the constraint matrices the code builds are
embedded as a feasibility predicate (`lpFeasible`), and the decode /
noise-filter / cost computation on the success path is embedded verbatim.
-/

/-! ## Cost Oracle (app_v2.py `calculate_shipping_costs`, lines 211-215;
    app.py lines 151-155) -/

/-- One row of the distance matrix built by `calculate_distance_matrix`:
a (warehouse, demand-point) pair with its distance in miles. -/
structure DistanceRow where
  warehouse : String
  dc_Channel : String
  dc_State : String
  distance_Miles : ℚ
deriving DecidableEq

/-- One row of the shipping-cost table: the distance row plus the derived
`Cost_Per_Unit` column. -/
structure CostRow where
  warehouse : String
  dc_Channel : String
  dc_State : String
  distance_Miles : ℚ
  cost_Per_Unit : ℚ
deriving DecidableEq

/-- Embeds `calculate_shipping_costs(distance_matrix, rate)`:
`costs['Cost_Per_Unit'] = costs['Distance_Miles'] * rate / 100`, all other
columns copied unchanged.  Pure function of its inputs. -/
def calculate_shipping_costs (distance_matrix : List DistanceRow) (rate : ℚ) : List CostRow :=
  distance_matrix.map (fun row =>
    CostRow.mk row.warehouse row.dc_Channel row.dc_State row.distance_Miles
      (row.distance_Miles * rate / 100))

/-! ## Inventory Projector (app_v2.py `calculate_available_inventory`,
    lines 218-264; db.py lines 520-545).  Both sources compute, per
    (warehouse, SKU) schedule row, the same week-dependent formula and
    floor the result at zero. -/

/-- Embeds the per-row body of `calculate_available_inventory` (app_v2.py
lines 246-262 and db.py lines 532-545): week 3 adds `Incoming_Week3` and
subtracts both outgoing weeks, week 4 additionally adds `Incoming_Week4`,
any other week returns the on-hand quantity; the result is floored at 0. -/
def calculate_available_inventory (current_inv in_w3 in_w4 out_w1 out_w2 : ℚ)
    (week : ℕ) : ℚ :=
  max 0
    (if week = 3 then current_inv + in_w3 - out_w1 - out_w2
     else if week = 4 then current_inv + in_w3 + in_w4 - out_w1 - out_w2
     else current_inv)

/-- Scheduled inbound quantity of period `p` in the ledger: inbound is
scheduled for weeks 3 and 4 only. -/
def inboundAt (in_w3 in_w4 : ℚ) (p : ℕ) : ℚ :=
  if p = 3 then in_w3 else if p = 4 then in_w4 else 0

/-- Scheduled outbound quantity of period `p` in the ledger: outbound is
scheduled for weeks 1 and 2 only. -/
def outboundAt (out_w1 out_w2 : ℚ) (p : ℕ) : ℚ :=
  if p = 1 then out_w1 else if p = 2 then out_w2 else 0

/-- The specification's projection formula, stated in the spec's own words
for comparison with `calculate_available_inventory`:
`available = max(0, on_hand + Σ_(p ≤ week) inbound(p) − Σ_(p ≤ week) outbound(p))`. -/
def spec_available (current_inv in_w3 in_w4 out_w1 out_w2 : ℚ) (week : ℕ) : ℚ :=
  max 0
    (current_inv + ((List.range (week + 1)).map (inboundAt in_w3 in_w4)).sum
      - ((List.range (week + 1)).map (outboundAt out_w1 out_w2)).sum)

/-! ## Route data model (app_v2.py `optimize_allocation_multi_week`,
    lines 390-425: the `allocation_data` rows fed to the LP solver). -/

/-- One row of the `allocation_df` dataframe handed to
`solve_lp_with_inventory`: the columns the solver reads. -/
structure Route where
  product : String
  warehouse : String
  channel : String
  state : String
  demand : ℚ
  cost_Per_Unit : ℚ
deriving DecidableEq

/-- A route together with the solved split variables `x_inv` (units taken
from inventory) and `x_ship` (units newly shipped) of `solve_lp_with_inventory`. -/
structure RouteAlloc where
  route : Route
  x_inv : ℚ
  x_ship : ℚ
deriving DecidableEq

/-- The row mask of one demand constraint (app_v2.py lines 294-298):
a route belongs to the (product, channel, state) demand group. -/
def demandMatch (p c s : String) (r : Route) : Bool :=
  r.product == p && r.channel == c && r.state == s

/-- The decoded `Allocated_Units` column: `x_inv + x_ship` (line 355). -/
def rowTotal (ra : RouteAlloc) : ℚ := ra.x_inv + ra.x_ship

/-- Sum of `x_inv + x_ship` over the routes of one (product, channel,
state) demand group: the left side of a demand equality row (lines 299-303). -/
def groupTotal (rows : List RouteAlloc) (p c s : String) : ℚ :=
  ((rows.filter (fun ra => demandMatch p c s ra.route)).map rowTotal).sum

/-- The right side of a demand equality row: pandas
`groupby(['Product','Channel','State'])['Demand'].first()` (line 290) takes
the demand value of the group's first row in dataframe order. -/
def firstDemandOf (rows : List RouteAlloc) (p c s : String) : ℚ :=
  (((rows.filter (fun ra => demandMatch p c s ra.route)).head?).map
    (fun ra => ra.route.demand)).getD 0

/-- Sum of `x_inv` over every route of one warehouse: the left side of an
inventory ceiling row (lines 310-314). -/
def whInvTotal (rows : List RouteAlloc) (wh : String) : ℚ :=
  ((rows.filter (fun ra => ra.route.warehouse == wh)).map RouteAlloc.x_inv).sum

/-- Sum of `x_inv + x_ship` over every route of one warehouse: the left
side of a capacity ceiling row (lines 325-327). -/
def whFlowTotal (rows : List RouteAlloc) (wh : String) : ℚ :=
  ((rows.filter (fun ra => ra.route.warehouse == wh)).map rowTotal).sum

/-- Embeds the inventory lookup of lines 317-318:
`avail[0] if len(avail) > 0 else 0` over `inventory_df[Name == wh]`. -/
def invAvail (inventory : List (String × ℚ)) (wh : String) : ℚ :=
  (((inventory.filter (fun e => e.1 == wh)).head?).map Prod.snd).getD 0

/-- Embeds the capacity lookup of lines 329-330:
`cap[0] if len(cap) > 0 else 100000` over `warehouses_df[Name == wh]`. -/
def capOf (warehouses : List (String × ℚ)) (wh : String) : ℚ :=
  (((warehouses.filter (fun e => e.1 == wh)).head?).map Prod.snd).getD 100000

/-- The constraint system `solve_lp_with_inventory` builds (lines 282-341),
read as a satisfaction predicate on an assignment of the split variables:
  * bounds: every variable is non-negative (line 341);
  * one demand equality row per (product, channel, state) group present in
    the route set (lines 288-304), right side the group's first demand;
  * one inventory ceiling row per warehouse present (lines 306-321), right
    side `max(0, available)`;
  * when `ignore_capacity` is false, one capacity ceiling row per warehouse
    present (lines 323-333).
Quantifying over `ra ∈ rows` quantifies exactly over the groups and
warehouses the code builds rows for. -/
def lpFeasible (rows : List RouteAlloc) (inventory : List (String × ℚ))
    (warehouses : List (String × ℚ)) (ignore_capacity : Bool) : Prop :=
  (∀ ra ∈ rows, 0 ≤ ra.x_inv ∧ 0 ≤ ra.x_ship) ∧
  (∀ ra ∈ rows,
    groupTotal rows ra.route.product ra.route.channel ra.route.state
      = firstDemandOf rows ra.route.product ra.route.channel ra.route.state) ∧
  (∀ ra ∈ rows,
    whInvTotal rows ra.route.warehouse ≤ max 0 (invAvail inventory ra.route.warehouse)) ∧
  (ignore_capacity = false →
    ∀ ra ∈ rows, whFlowTotal rows ra.route.warehouse ≤ capOf warehouses ra.route.warehouse)

/-- The noise filter of line 361:
`result_df = result_df[result_df['Allocated_Units'] > 0.01]`. -/
def dropNoise (rows : List RouteAlloc) : List RouteAlloc :=
  rows.filter (fun ra => 0.01 < rowTotal ra)

/-- The objective vector dotted with the solution (lines 277-280 and
`res.fun`): `c = concatenate([zeros(n), Cost_Per_Unit])`, so the value is
`Σ 0·x_inv[r] + Σ cost_per_unit[r]·x_ship[r]`. -/
def lpObjective (rows : List RouteAlloc) : ℚ :=
  (rows.map (fun ra => 0 * ra.x_inv)).sum
    + (rows.map (fun ra => ra.route.cost_Per_Unit * ra.x_ship)).sum

/-- The per-row `Total_Cost` column summed over all routes (line 358):
`Allocated_Shipped * Cost_Per_Unit`. -/
def shippedCostTotal (rows : List RouteAlloc) : ℚ :=
  (rows.map (fun ra => ra.x_ship * ra.route.cost_Per_Unit)).sum

/-- How many routes of one demand group the noise filter drops. -/
def droppedMatching (rows : List RouteAlloc) (p c s : String) : ℕ :=
  ((rows.filter (fun ra => demandMatch p c s ra.route)).filter
    (fun ra => !(0.01 < rowTotal ra : Bool))).length

/-! ## The solve call itself (lines 343-367).  `linprog` is external; its
    outcome is abstracted: `success x` carries the per-route solution
    pairs, `failure` is `res.success == False`, `error` a raised
    exception.  The decode, noise filter and returned cost on the success
    branch, and the `(None, 0)` of both failure branches, are embedded
    verbatim. -/

/-- Abstract outcome of the external `scipy.optimize.linprog` call. -/
inductive SolverOutcome where
  | success (x : List (ℚ × ℚ))
  | failure
  | error
deriving DecidableEq

/-- Pairing each route with its solved `(x_inv, x_ship)` models lines
349-355: `x_inv = res.x[:n]`, `x_ship = res.x[n:]` written back onto a copy
of `allocation_df`. -/
def decodeRows (routes : List Route) (x : List (ℚ × ℚ)) : List RouteAlloc :=
  List.zipWith (fun r p => RouteAlloc.mk r p.1 p.2) routes x

/-- Embeds `solve_lp_with_inventory`'s return behaviour (lines 343-367):
on success the noise-filtered decoded table and `res.fun` (the objective
value at the returned solution); on solver failure or a raised exception,
`(None, 0)` — the exception is caught, never re-raised. -/
def solve_lp_with_inventory (routes : List Route) (outcome : SolverOutcome) :
    Option (List RouteAlloc) × ℚ :=
  match outcome with
  | SolverOutcome.success x =>
      (some (dropNoise (decodeRows routes x)), lpObjective (decodeRows routes x))
  | SolverOutcome.failure => (none, 0)
  | SolverOutcome.error => (none, 0)

/-! ## Route Builder and Period Orchestrator
    (app_v2.py `optimize_allocation_multi_week`, lines 369-440). -/

/-- One row of the demand forecast for a fixed week: the columns read in
lines 392-396. -/
structure DemandRow where
  product : String
  channel : String
  state : String
  demand_units : ℚ
deriving DecidableEq

/-- The inner loop of lines 398-423 for one demand row: the shipping-cost
rows whose `DC_Channel`/`DC_State` match the demand become routes carrying
the demand's product and units and the cost row's warehouse and cost. -/
def routesForDemand (costs : List CostRow) (d : DemandRow) : List Route :=
  (costs.filter (fun c => c.dc_Channel == d.channel && c.dc_State == d.state)).map
    (fun c => Route.mk d.product c.warehouse d.channel d.state d.demand_units c.cost_Per_Unit)

/-- The full `allocation_data` list of lines 390-425: every demand row
contributes one route per matching shipping-cost row; a demand with no
matching cost row contributes nothing. -/
def buildAllocationData (demand : List DemandRow) (costs : List CostRow) : List Route :=
  demand.flatMap (routesForDemand costs)

/-- Embeds one week of `optimize_allocation_multi_week` (lines 425-438):
an empty route set short-circuits to `(None, None)` before any solve;
otherwise the solver runs, a successful solve is stored as is, and a failed
one is stored as `(None, 0)`. -/
def optimizePeriodResult (demand : List DemandRow) (costs : List CostRow)
    (outcome : SolverOutcome) : Option (List RouteAlloc) × Option ℚ :=
  let routes := buildAllocationData demand costs
  if routes.isEmpty then (none, none)
  else
    match solve_lp_with_inventory routes outcome with
    | (some df, cost) => (some df, some cost)
    | (none, _) => (none, some 0)

/-- Embeds the cost aggregate of app_v2.py lines 1565 and 1705:
`sum(cost for _, cost in results.values())` over the per-week pairs. -/
def aggregateCost (results : List (Option (List RouteAlloc) × ℚ)) : ℚ :=
  (results.map Prod.snd).sum

/-! ## Plan Costing Heuristic (app_v2.py `calculate_customer_cost_manual`,
    lines 509-537): per warehouse, the plan's rows are sorted by
    `Cost_Per_Unit` descending and available inventory is greedily applied
    to each row in turn. -/

/-- One resolved row of the customer allocation plan for one warehouse:
the columns the deduction loop reads. -/
structure PlanRow where
  cost_Per_Unit : ℚ
  allocated_Units : ℚ
deriving DecidableEq

/-- A plan row after the inventory offset pass: the row with its
`Allocated_From_Inv` and `Allocated_Shipped` columns. -/
structure OffsetRow where
  row : PlanRow
  allocated_From_Inv : ℚ
  allocated_Shipped : ℚ
deriving DecidableEq

/-- The loop body of lines 525-534 on the cost-sorted rows of one
warehouse: `can_cover = min(needed, avail)`, the row gets
`Allocated_From_Inv = can_cover` and `Allocated_Shipped = needed − can_cover`,
the pool is decremented, and when it reaches zero the loop breaks, leaving
every later row at its defaults from lines 512-513 (`From_Inv = 0`,
`Shipped = Allocated_Units`). -/
def greedyDeductLoop : ℚ → List PlanRow → List OffsetRow
  | _, [] => []
  | avail, r :: rest =>
      OffsetRow.mk r (min r.allocated_Units avail)
          (r.allocated_Units - min r.allocated_Units avail) ::
        (if avail - min r.allocated_Units avail ≤ 0 then
          rest.map (fun q => OffsetRow.mk q 0 q.allocated_Units)
        else greedyDeductLoop (avail - min r.allocated_Units avail) rest)

/-- The sort of line 523: `sort_values('Cost_Per_Unit', ascending=False)`. -/
def sortByCostDesc (rows : List PlanRow) : List PlanRow :=
  rows.mergeSort (fun a b => decide (b.cost_Per_Unit ≤ a.cost_Per_Unit))

/-- Embeds lines 512-534 for one warehouse: rows default to fully shipped,
and only when the available pool is strictly positive (guard of line 520)
does the greedy deduction run over the cost-descending rows. -/
def apply_inventory_deduction (avail : ℚ) (rows : List PlanRow) : List OffsetRow :=
  if 0 < avail then greedyDeductLoop avail (sortByCostDesc rows)
  else rows.map (fun q => OffsetRow.mk q 0 q.allocated_Units)

/-- The greedy rule in the specification's own words, for comparison with
`apply_inventory_deduction`: sequentially subtract
`min(remaining_route_quantity, remaining_inventory)` from each route of the
cost-descending list, decrementing the pool, with no early break. -/
def specGreedyDeduct : ℚ → List PlanRow → List OffsetRow
  | _, [] => []
  | avail, r :: rest =>
      OffsetRow.mk r (min r.allocated_Units avail)
          (r.allocated_Units - min r.allocated_Units avail) ::
        specGreedyDeduct (avail - min r.allocated_Units avail) rest

/-- Total `Allocated_From_Inv` assigned over an offset table. -/
def totalFromInv (out : List OffsetRow) : ℚ :=
  (out.map OffsetRow.allocated_From_Inv).sum

/-! ## Helper lemmas on list sums -/

/-- A mapped sum splits into the part kept and the part dropped by a
Boolean filter. -/
theorem sum_map_filter_split {α : Type} (l : List α) (k : α → Bool) (f : α → ℚ) :
    (l.map f).sum
      = ((l.filter k).map f).sum + ((l.filter (fun a => !k a)).map f).sum := by
  induction l with
  | nil => simp
  | cons a t ih =>
      cases hk : k a <;> simp [List.filter_cons, hk, ih] <;> ring

/-- A mapped sum of entries bounded by `c` is at most `c` times the length. -/
theorem sum_map_le_card {α : Type} (l : List α) (f : α → ℚ) (c : ℚ)
    (h : ∀ a ∈ l, f a ≤ c) : (l.map f).sum ≤ c * l.length := by
  induction l with
  | nil => simp
  | cons a t ih =>
      have ht : (t.map f).sum ≤ c * t.length := ih (fun b hb => h b (List.mem_cons_of_mem a hb))
      have ha : f a ≤ c := h a (List.mem_cons_self a t)
      simp only [List.map_cons, List.sum_cons, List.length_cons]
      push_cast
      nlinarith

/-- A mapped sum of non-negative entries is non-negative. -/
theorem sum_map_nonneg {α : Type} (l : List α) (f : α → ℚ)
    (h : ∀ a ∈ l, 0 ≤ f a) : 0 ≤ (l.map f).sum := by
  induction l with
  | nil => simp
  | cons a t ih =>
      have := h a (List.mem_cons_self a t)
      have := ih (fun b hb => h b (List.mem_cons_of_mem a hb))
      simp only [List.map_cons, List.sum_cons]
      linarith

/-! ## Claim C9 — Cost Oracle -/

/-- Claim C9: for every distance at least 0 and rate above 0, the per-unit
shipping cost attached to a route equals distance times rate divided by
100; the oracle is a pure function, every input row reappears with exactly
that cost and no other field changed. -/
theorem C9_cost_per_unit (distance_matrix : List DistanceRow) (rate : ℚ)
    (hrate : 0 < rate) (r : DistanceRow) (hr : r ∈ distance_matrix)
    (hd : 0 ≤ r.distance_Miles) :
    CostRow.mk r.warehouse r.dc_Channel r.dc_State r.distance_Miles
        (r.distance_Miles * rate / 100) ∈ calculate_shipping_costs distance_matrix rate
      ∧ ∀ out ∈ calculate_shipping_costs distance_matrix rate,
          out.cost_Per_Unit = out.distance_Miles * rate / 100 := by
  constructor
  · exact List.mem_map.mpr ⟨r, hr, rfl⟩
  · intro out hout
    rcases List.mem_map.mp hout with ⟨row, _, rfl⟩
    rfl

/-- Witness for C9 at a concrete distance row and rate. -/
theorem C9_cost_per_unit_witness :
    CostRow.mk "WH-A" "Online" "CA" 200 (200 * (15 / 100) / 100)
        ∈ calculate_shipping_costs [DistanceRow.mk "WH-A" "Online" "CA" 200] (15 / 100)
      ∧ ∀ out ∈ calculate_shipping_costs [DistanceRow.mk "WH-A" "Online" "CA" 200] (15 / 100),
          out.cost_Per_Unit = out.distance_Miles * (15 / 100) / 100 :=
  C9_cost_per_unit [DistanceRow.mk "WH-A" "Online" "CA" 200] (15 / 100)
    (by norm_num) (DistanceRow.mk "WH-A" "Online" "CA" 200)
    (List.mem_singleton.mpr rfl) (by norm_num)

/-! ## Claim C6 — Inventory Projector -/

/-- Counterexample to claim C6 as stated: at week 1 the code returns the
plain on-hand quantity (10) while the claimed formula subtracts the week-1
outbound and yields 5. -/
theorem C6_counterexample :
    calculate_available_inventory 10 0 0 5 0 1 ≠ spec_available 10 0 0 5 0 1 := by
  norm_num [calculate_available_inventory, spec_available, inboundAt, outboundAt,
    List.range_succ]

/-- Claim C6 (amended): the projection is never negative, and for the
system's planning periods, weeks 3 and 4, it equals the claimed formula
max(0, on-hand + scheduled inbound up to the period − scheduled outbound up
to the period), recomputed independently from the static ledger; for any
other week value the code returns max(0, on-hand) and ignores the
scheduled outbound. -/
theorem C6_available_inventory (current_inv in_w3 in_w4 out_w1 out_w2 : ℚ) (week : ℕ) :
    0 ≤ calculate_available_inventory current_inv in_w3 in_w4 out_w1 out_w2 week
      ∧ (week = 3 ∨ week = 4 →
          calculate_available_inventory current_inv in_w3 in_w4 out_w1 out_w2 week
            = spec_available current_inv in_w3 in_w4 out_w1 out_w2 week)
      ∧ (week ≠ 3 → week ≠ 4 →
          calculate_available_inventory current_inv in_w3 in_w4 out_w1 out_w2 week
            = max 0 current_inv) := by
  refine ⟨le_max_left 0 _, ?_, ?_⟩
  · rintro (rfl | rfl) <;>
      · simp only [calculate_available_inventory, spec_available, inboundAt, outboundAt,
          List.range_succ, List.range_zero, List.map_append, List.map_cons, List.map_nil,
          List.sum_append, List.sum_cons, List.sum_nil]
        norm_num
        congr 1
        ring
  · intro h3 h4
    simp [calculate_available_inventory, h3, h4]

/-! ## Claim C1 — demand equality of the LP -/

/-- Claim C1: in every successful inventory-aware LP solve, each
(product, channel, state) demand group present in the route set receives,
summed over its routes, exactly its required demand units; after the 0.01
noise filter the decoded allocation still sums to the demand within 0.01
units per dropped route. -/
theorem C1_demand_group_equality
    (rows : List RouteAlloc) (inventory warehouses : List (String × ℚ)) (ig : Bool)
    (h : lpFeasible rows inventory warehouses ig) (ra : RouteAlloc) (hra : ra ∈ rows) :
    groupTotal rows ra.route.product ra.route.channel ra.route.state
        = firstDemandOf rows ra.route.product ra.route.channel ra.route.state
      ∧ groupTotal (dropNoise rows) ra.route.product ra.route.channel ra.route.state
          ≤ firstDemandOf rows ra.route.product ra.route.channel ra.route.state
      ∧ firstDemandOf rows ra.route.product ra.route.channel ra.route.state
            - (droppedMatching rows ra.route.product ra.route.channel ra.route.state : ℚ)
              * 0.01
          ≤ groupTotal (dropNoise rows) ra.route.product ra.route.channel ra.route.state := by
  have h1 : groupTotal rows ra.route.product ra.route.channel ra.route.state
      = firstDemandOf rows ra.route.product ra.route.channel ra.route.state :=
    h.2.1 ra hra
  have hsplit := sum_map_filter_split
    (rows.filter (fun x => demandMatch ra.route.product ra.route.channel ra.route.state x.route))
    (fun x => (0.01 < rowTotal x : Bool)) rowTotal
  have hcomm : groupTotal (dropNoise rows) ra.route.product ra.route.channel ra.route.state
      = (((rows.filter
            (fun x => demandMatch ra.route.product ra.route.channel ra.route.state x.route)).filter
          (fun x => (0.01 < rowTotal x : Bool))).map rowTotal).sum := by
    simp only [groupTotal, dropNoise, List.filter_comm]
  have hdrop_nonneg : 0 ≤
      (((rows.filter
          (fun x => demandMatch ra.route.product ra.route.channel ra.route.state x.route)).filter
        (fun x => !(0.01 < rowTotal x : Bool))).map rowTotal).sum := by
    refine sum_map_nonneg _ _ (fun a ha => ?_)
    have hmem : a ∈ rows := List.mem_of_mem_filter (List.mem_of_mem_filter ha)
    have hnn := h.1 a hmem
    exact add_nonneg hnn.1 hnn.2
  have hdrop_le :
      (((rows.filter
          (fun x => demandMatch ra.route.product ra.route.channel ra.route.state x.route)).filter
        (fun x => !(0.01 < rowTotal x : Bool))).map rowTotal).sum
      ≤ 0.01 *
        ((rows.filter
            (fun x => demandMatch ra.route.product ra.route.channel ra.route.state x.route)).filter
          (fun x => !(0.01 < rowTotal x : Bool))).length := by
    refine sum_map_le_card _ _ _ (fun a ha => ?_)
    have hp := List.of_mem_filter ha
    simp only [Bool.not_eq_true', decide_eq_false_iff_not, not_lt] at hp
    exact hp
  have hcount : (droppedMatching rows ra.route.product ra.route.channel ra.route.state : ℚ)
      = ((rows.filter
            (fun x => demandMatch ra.route.product ra.route.channel ra.route.state x.route)).filter
          (fun x => !(0.01 < rowTotal x : Bool))).length := by
    simp only [droppedMatching]
  refine ⟨h1, ?_, ?_⟩
  · rw [hcomm]
    have : groupTotal rows ra.route.product ra.route.channel ra.route.state
        = (((rows.filter
              (fun x => demandMatch ra.route.product ra.route.channel ra.route.state
                x.route)).filter (fun x => (0.01 < rowTotal x : Bool))).map rowTotal).sum
          + (((rows.filter
              (fun x => demandMatch ra.route.product ra.route.channel ra.route.state
                x.route)).filter (fun x => !(0.01 < rowTotal x : Bool))).map rowTotal).sum := by
      simpa [groupTotal] using hsplit
    linarith [this, h1, hdrop_nonneg]
  · rw [hcomm, hcount]
    have : groupTotal rows ra.route.product ra.route.channel ra.route.state
        = (((rows.filter
              (fun x => demandMatch ra.route.product ra.route.channel ra.route.state
                x.route)).filter (fun x => (0.01 < rowTotal x : Bool))).map rowTotal).sum
          + (((rows.filter
              (fun x => demandMatch ra.route.product ra.route.channel ra.route.state
                x.route)).filter (fun x => !(0.01 < rowTotal x : Bool))).map rowTotal).sum := by
      simpa [groupTotal] using hsplit
    linarith [this, h1, hdrop_le]

/-- Witness for C1: a concrete feasible one-route solve, demand 5 covered
by 2 inventory-sourced and 3 shipped units. -/
theorem C1_demand_group_equality_witness :
    groupTotal [RouteAlloc.mk (Route.mk "P" "W" "C" "S" 5 1) 2 3] "P" "C" "S"
        = firstDemandOf [RouteAlloc.mk (Route.mk "P" "W" "C" "S" 5 1) 2 3] "P" "C" "S"
      ∧ groupTotal (dropNoise [RouteAlloc.mk (Route.mk "P" "W" "C" "S" 5 1) 2 3]) "P" "C" "S"
          ≤ firstDemandOf [RouteAlloc.mk (Route.mk "P" "W" "C" "S" 5 1) 2 3] "P" "C" "S"
      ∧ firstDemandOf [RouteAlloc.mk (Route.mk "P" "W" "C" "S" 5 1) 2 3] "P" "C" "S"
            - (droppedMatching [RouteAlloc.mk (Route.mk "P" "W" "C" "S" 5 1) 2 3] "P" "C" "S" : ℚ)
              * 0.01
          ≤ groupTotal (dropNoise [RouteAlloc.mk (Route.mk "P" "W" "C" "S" 5 1) 2 3]) "P" "C" "S" :=
  C1_demand_group_equality [RouteAlloc.mk (Route.mk "P" "W" "C" "S" 5 1) 2 3]
    [("W", 2)] [("W", 10)] false
    (by
      refine ⟨?_, ?_, ?_, ?_⟩ <;>
        norm_num [lpFeasible, groupTotal, firstDemandOf, whInvTotal, whFlowTotal,
          invAvail, capOf, demandMatch, rowTotal])
    (RouteAlloc.mk (Route.mk "P" "W" "C" "S" 5 1) 2 3)
    (List.mem_singleton.mpr rfl)

/-! ## Claim C2 — inventory ceiling of the LP -/

/-- Claim C2: in any successful LP solution, for every warehouse the sum
of the inventory-sourced units over all of that warehouse's routes is at
most the warehouse's available inventory for the period (a single pooled
bound shared by all its routes), provided the available figure is the
projector's non-negative output. -/
theorem C2_inventory_ceiling
    (rows : List RouteAlloc) (inventory warehouses : List (String × ℚ)) (ig : Bool)
    (h : lpFeasible rows inventory warehouses ig) (wh : String)
    (havail : 0 ≤ invAvail inventory wh) :
    whInvTotal rows wh ≤ invAvail inventory wh := by
  by_cases hex : ∃ ra ∈ rows, ra.route.warehouse = wh
  · rcases hex with ⟨ra, hra, hwh⟩
    have := h.2.2.1 ra hra
    rw [hwh] at this
    exact this.trans (le_of_eq (max_eq_right havail))
  · have hnil : rows.filter (fun x => x.route.warehouse == wh) = [] := by
      rw [List.filter_eq_nil_iff]
      intro a ha hw
      exact hex ⟨a, ha, by simpa using hw⟩
    simp [whInvTotal, hnil, havail]

/-- Witness for C2: the concrete feasible solve of the C1 witness, checked
against warehouse W with 2 available units. -/
theorem C2_inventory_ceiling_witness :
    whInvTotal [RouteAlloc.mk (Route.mk "P" "W" "C" "S" 5 1) 2 3] "W"
      ≤ invAvail [("W", 2)] "W" :=
  C2_inventory_ceiling [RouteAlloc.mk (Route.mk "P" "W" "C" "S" 5 1) 2 3]
    [("W", 2)] [("W", 10)] false
    (by
      refine ⟨?_, ?_, ?_, ?_⟩ <;>
        norm_num [lpFeasible, groupTotal, firstDemandOf, whInvTotal, whFlowTotal,
          invAvail, capOf, demandMatch, rowTotal])
    "W" (by norm_num [invAvail])

/-! ## Claim C7 — capacity ceiling toggle -/

/-- Claim C7: with `ignore_capacity` false every feasible solution keeps
each warehouse's total flow (inventory-sourced plus shipped) within its
capacity; with `ignore_capacity` true the capacity rows are not built, and
a feasible solution may exceed capacity, shown by a concrete instance. -/
theorem C7_capacity_toggle
    (rows : List RouteAlloc) (inventory warehouses : List (String × ℚ))
    (h : lpFeasible rows inventory warehouses false) :
    (∀ ra ∈ rows, whFlowTotal rows ra.route.warehouse ≤ capOf warehouses ra.route.warehouse)
      ∧ ∃ rows2 inventory2 warehouses2,
          lpFeasible rows2 inventory2 warehouses2 true
            ∧ ∃ ra2 ∈ rows2, capOf warehouses2 ra2.route.warehouse
                < whFlowTotal rows2 ra2.route.warehouse := by
  constructor
  · exact h.2.2.2 rfl
  · refine ⟨[RouteAlloc.mk (Route.mk "P" "W" "C" "S" 50 1) 0 50], [("W", 0)], [("W", 10)],
      ?_, RouteAlloc.mk (Route.mk "P" "W" "C" "S" 50 1) 0 50, List.mem_singleton.mpr rfl, ?_⟩
    · refine ⟨?_, ?_, ?_, ?_⟩
      · intro ra hra
        rw [List.mem_singleton] at hra
        subst hra
        norm_num
      · intro ra hra
        rw [List.mem_singleton] at hra
        subst hra
        norm_num [groupTotal, firstDemandOf, demandMatch, rowTotal]
      · intro ra hra
        rw [List.mem_singleton] at hra
        subst hra
        norm_num [whInvTotal, invAvail]
      · intro hfalse
        exact absurd hfalse (by simp)
    · norm_num [whFlowTotal, capOf, rowTotal]

/-- Witness for C7: the concrete feasible capacity-respecting solve of the
C1 witness instance, under `ignore_capacity = false`. -/
theorem C7_capacity_toggle_witness :
    (∀ ra ∈ [RouteAlloc.mk (Route.mk "P" "W" "C" "S" 5 1) 2 3],
        whFlowTotal [RouteAlloc.mk (Route.mk "P" "W" "C" "S" 5 1) 2 3] ra.route.warehouse
          ≤ capOf [("W", 10)] ra.route.warehouse)
      ∧ ∃ rows2 inventory2 warehouses2,
          lpFeasible rows2 inventory2 warehouses2 true
            ∧ ∃ ra2 ∈ rows2, capOf warehouses2 ra2.route.warehouse
                < whFlowTotal rows2 ra2.route.warehouse :=
  C7_capacity_toggle [RouteAlloc.mk (Route.mk "P" "W" "C" "S" 5 1) 2 3]
    [("W", 2)] [("W", 10)]
    (by
      refine ⟨?_, ?_, ?_, ?_⟩ <;>
        norm_num [lpFeasible, groupTotal, firstDemandOf, whInvTotal, whFlowTotal,
          invAvail, capOf, demandMatch, rowTotal])

/-! ## Claim C8 — noise filter and returned cost -/

/-- The objective vector has zero cost on every inventory variable, so its
value collapses to the shipped-cost sum. -/
theorem lpObjective_eq_shippedCostTotal (rows : List RouteAlloc) :
    lpObjective rows = shippedCostTotal rows := by
  induction rows with
  | nil => simp [lpObjective, shippedCostTotal]
  | cons a t ih =>
      simp only [lpObjective, shippedCostTotal, List.map_cons, List.sum_cons] at ih ⊢
      linarith [ih, mul_comm a.route.cost_Per_Unit a.x_ship]

/-- Claim C8: on a successful solve the returned table is the decoded
allocation with rows at or below the 0.01 noise floor silently removed
(still a success value, not an error), and the returned period cost is the
sum of shipped units times cost per unit over all routes, which is exactly
the LP objective value. -/
theorem C8_noise_floor_and_cost (routes : List Route) (x : List (ℚ × ℚ)) :
    (solve_lp_with_inventory routes (SolverOutcome.success x)).1
        = some (dropNoise (decodeRows routes x))
      ∧ (∀ ra ∈ decodeRows routes x,
          rowTotal ra < 0.01 → ra ∉ dropNoise (decodeRows routes x))
      ∧ (solve_lp_with_inventory routes (SolverOutcome.success x)).2
          = shippedCostTotal (decodeRows routes x)
      ∧ lpObjective (decodeRows routes x) = shippedCostTotal (decodeRows routes x) := by
  refine ⟨rfl, ?_, ?_, lpObjective_eq_shippedCostTotal _⟩
  · intro ra _ hlt hmem
    have hkept := List.of_mem_filter hmem
    simp only [decide_eq_true_eq] at hkept
    linarith
  · exact lpObjective_eq_shippedCostTotal _

/-! ## Claim C4 — demand with zero eligible warehouses -/

/-- Counterexample to claim C4 as stated: demand (P, C1, S1) has zero
eligible warehouses, yet the period does not fail before solving — the
remaining demand still produces routes and the optimization proceeds to a
solver result. -/
theorem C4_counterexample :
    routesForDemand [CostRow.mk "W" "C2" "S2" 100 1] (DemandRow.mk "P" "C1" "S1" 5) = []
      ∧ buildAllocationData
          [DemandRow.mk "P" "C1" "S1" 5, DemandRow.mk "P" "C2" "S2" 7]
          [CostRow.mk "W" "C2" "S2" 100 1] ≠ []
      ∧ (optimizePeriodResult
          [DemandRow.mk "P" "C1" "S1" 5, DemandRow.mk "P" "C2" "S2" 7]
          [CostRow.mk "W" "C2" "S2" 100 1] (SolverOutcome.success [(0, 7)])).1 ≠ none := by
  refine ⟨?_, ?_, ?_⟩
  · simp [routesForDemand]
  · simp [buildAllocationData, routesForDemand]
  · exact fun hcontra => Option.noConfusion hcontra

/-- Claim C4 (amended): a DemandRequirement with zero eligible warehouses
contributes no routes and is silently dropped from the period's LP; the
period fails before solving, with the explicit empty result (None, None),
only when every demand of the period has zero eligible warehouses, that
is, when the whole route set is empty. -/
theorem C4_no_eligible_route
    (demand : List DemandRow) (costs : List CostRow) (outcome : SolverOutcome) :
    (buildAllocationData demand costs = [] →
        optimizePeriodResult demand costs outcome = (none, none))
      ∧ ∀ d ∈ demand, routesForDemand costs d = [] →
          ∀ r ∈ buildAllocationData demand costs, ¬(r.channel = d.channel ∧ r.state = d.state) := by
  constructor
  · intro hempty
    simp [optimizePeriodResult, hempty]
  · intro d _ hnil r hr hmatchd
    rcases hmatchd with ⟨hc, hs⟩
    rcases List.mem_flatMap.mp hr with ⟨d2, _, hr2⟩
    rcases List.mem_map.mp hr2 with ⟨crow, hcmem, hreq⟩
    have hcc := List.of_mem_filter hcmem
    have hchan : r.channel = d2.channel := by rw [← hreq]
    have hstate : r.state = d2.state := by rw [← hreq]
    simp only [routesForDemand, List.map_eq_nil_iff] at hnil
    have hforall := List.filter_eq_nil_iff.mp hnil crow (List.mem_of_mem_filter hcmem)
    apply hforall
    rw [← hc, ← hs, hchan, hstate]
    exact hcc

/-! ## Claim C5 — failed periods versus zero cost -/

/-- Counterexample to claim C5 as stated: a failed solve and a genuinely
zero-cost successful solve contribute the same value, 0, to the cost
aggregate, so the aggregate sum over periods alone cannot distinguish
"zero cost" from "not computed"; only the allocation slot (None versus a
table) distinguishes them. -/
theorem C5_counterexample :
    aggregateCost [solve_lp_with_inventory [Route.mk "P" "W" "C" "S" 0 1]
          SolverOutcome.failure]
        = aggregateCost [solve_lp_with_inventory [Route.mk "P" "W" "C" "S" 0 1]
            (SolverOutcome.success [(0, 0)])]
      ∧ (solve_lp_with_inventory [Route.mk "P" "W" "C" "S" 0 1] SolverOutcome.failure).1 = none
      ∧ (solve_lp_with_inventory [Route.mk "P" "W" "C" "S" 0 1]
          (SolverOutcome.success [(0, 0)])).1 ≠ none := by
  refine ⟨?_, rfl, fun hcontra => Option.noConfusion hcontra⟩
  norm_num [aggregateCost, solve_lp_with_inventory, lpObjective, decodeRows]

/-- Claim C5 (amended): when the LP for a period fails or the solver
errors, the period's stored result is (None, 0): the allocation slot None
is distinct from any successful result and the failure is returned as a
value, never as an uncaught exception; the cost slot however is the number
0, not None, so only the allocation slot — not the cost aggregate — lets
callers distinguish "zero cost" from "not computed". -/
theorem C5_failure_result
    (demand : List DemandRow) (costs : List CostRow)
    (h : buildAllocationData demand costs ≠ []) :
    optimizePeriodResult demand costs SolverOutcome.failure = (none, some 0)
      ∧ optimizePeriodResult demand costs SolverOutcome.error = (none, some 0)
      ∧ ∀ x, (optimizePeriodResult demand costs (SolverOutcome.success x)).1.isSome = true := by
  refine ⟨?_, ?_, ?_⟩
  · simp [optimizePeriodResult, solve_lp_with_inventory, h]
  · simp [optimizePeriodResult, solve_lp_with_inventory, h]
  · intro x
    simp [optimizePeriodResult, solve_lp_with_inventory, h]

/-- Witness for C5 at a concrete one-demand, one-cost-row period. -/
theorem C5_failure_result_witness :
    optimizePeriodResult [DemandRow.mk "P" "C" "S" 5] [CostRow.mk "W" "C" "S" 100 1]
          SolverOutcome.failure = (none, some 0)
      ∧ optimizePeriodResult [DemandRow.mk "P" "C" "S" 5] [CostRow.mk "W" "C" "S" 100 1]
          SolverOutcome.error = (none, some 0)
      ∧ ∀ x, (optimizePeriodResult [DemandRow.mk "P" "C" "S" 5] [CostRow.mk "W" "C" "S" 100 1]
          (SolverOutcome.success x)).1.isSome = true :=
  C5_failure_result [DemandRow.mk "P" "C" "S" 5] [CostRow.mk "W" "C" "S" 100 1]
    (by simp [buildAllocationData, routesForDemand])

/-! ## Helper lemmas for the Plan Costing Heuristic -/

/-- With an exhausted pool and non-negative quantities the spec's greedy
rule assigns nothing, like the broken-out-of loop. -/
theorem specGreedyDeduct_zero (l : List PlanRow)
    (hq : ∀ r ∈ l, 0 ≤ r.allocated_Units) :
    specGreedyDeduct 0 l = l.map (fun q => OffsetRow.mk q 0 q.allocated_Units) := by
  induction l with
  | nil => simp [specGreedyDeduct]
  | cons r rest ih =>
      have h0 : min r.allocated_Units 0 = 0 :=
        min_eq_right (hq r (List.mem_cons_self r rest))
      simp only [specGreedyDeduct, h0, sub_zero, List.map_cons]
      exact congrArg _ (ih (fun a ha => hq a (List.mem_cons_of_mem r ha)))

/-- The loop with the early break computes exactly the spec's greedy rule
on a non-negative pool and non-negative quantities. -/
theorem greedyDeductLoop_eq_spec (l : List PlanRow) : ∀ avail : ℚ, 0 ≤ avail →
    (∀ r ∈ l, 0 ≤ r.allocated_Units) →
    greedyDeductLoop avail l = specGreedyDeduct avail l := by
  induction l with
  | nil => intro avail _ _; simp [greedyDeductLoop, specGreedyDeduct]
  | cons r rest ih =>
      intro avail ha hq
      have hmin : min r.allocated_Units avail ≤ avail := min_le_right _ _
      have hq2 : ∀ a ∈ rest, 0 ≤ a.allocated_Units :=
        fun a haa => hq a (List.mem_cons_of_mem r haa)
      by_cases hbr : avail - min r.allocated_Units avail ≤ 0
      · have heq0 : avail - min r.allocated_Units avail = 0 :=
          le_antisymm hbr (by linarith)
        simp only [greedyDeductLoop, specGreedyDeduct, if_pos hbr, heq0]
        exact congrArg _ (specGreedyDeduct_zero rest hq2).symm
      · simp only [greedyDeductLoop, specGreedyDeduct, if_neg hbr]
        exact congrArg _ (ih _ (by linarith [not_le.mp hbr]) hq2)

/-- The spec's greedy rule never assigns more inventory in total than the
pool it starts with. -/
theorem totalFromInv_spec_le (l : List PlanRow) : ∀ avail : ℚ, 0 ≤ avail →
    totalFromInv (specGreedyDeduct avail l) ≤ avail := by
  induction l with
  | nil => intro avail ha; simpa [specGreedyDeduct, totalFromInv] using ha
  | cons r rest ih =>
      intro avail ha
      have hmin : min r.allocated_Units avail ≤ avail := min_le_right _ _
      have hrec := ih (avail - min r.allocated_Units avail) (by linarith)
      simp only [specGreedyDeduct, totalFromInv, List.map_cons, List.sum_cons] at hrec ⊢
      linarith

/-- The cost-descending sort of a non-empty plan starts with a row of
maximal cost per unit. -/
theorem sortByCostDesc_head_max (rows : List PlanRow) (hne : rows ≠ []) :
    ∃ m tail, sortByCostDesc rows = m :: tail
      ∧ ∀ r ∈ rows, r.cost_Per_Unit ≤ m.cost_Per_Unit := by
  have hperm := List.mergeSort_perm rows
    (fun a b => decide (b.cost_Per_Unit ≤ a.cost_Per_Unit))
  have hsorted : List.Pairwise
      (fun a b : PlanRow => decide (b.cost_Per_Unit ≤ a.cost_Per_Unit) = true)
      (sortByCostDesc rows) :=
    List.sorted_mergeSort
      (fun a b c h1 h2 => by
        simp only [decide_eq_true_eq] at h1 h2 ⊢
        exact le_trans h2 h1)
      (fun a b => by
        simp only [Bool.or_eq_true, decide_eq_true_eq]
        exact le_total _ _)
      rows
  cases hs : sortByCostDesc rows with
  | nil =>
      exfalso
      apply hne
      have : sortByCostDesc rows = [] := hs
      unfold sortByCostDesc at this
      rw [this] at hperm
      exact (List.Perm.nil_eq hperm).symm
  | cons m tail =>
      refine ⟨m, tail, rfl, ?_⟩
      intro r hr
      have hr2 : r ∈ sortByCostDesc rows := by
        unfold sortByCostDesc
        exact hperm.mem_iff.mpr hr
      rw [hs] at hr2 hsorted
      rcases List.mem_cons.mp hr2 with rfl | htail
      · exact le_refl _
      · have := (List.pairwise_cons.mp hsorted).1 r htail
        simpa using this

/-! ## Claim C3 — greedy cost-descending inventory offset -/

/-- Claim C3: the plan-costing heuristic processes each warehouse's rows
in descending cost-per-unit order, assigns each row
min(row quantity, remaining pool) as units from inventory while
decrementing the pool — exactly the spec's sequential greedy rule — never
assigns more total inventory than the warehouse's available pool, and
offsets a highest-cost row first. -/
theorem C3_greedy_cost_descending (avail : ℚ) (rows : List PlanRow)
    (hq : ∀ r ∈ rows, 0 ≤ r.allocated_Units) (hpos : 0 < avail) (hne : rows ≠ []) :
    totalFromInv (apply_inventory_deduction avail rows) ≤ avail
      ∧ apply_inventory_deduction avail rows = specGreedyDeduct avail (sortByCostDesc rows)
      ∧ ∃ first rest, apply_inventory_deduction avail rows = first :: rest
          ∧ (∀ r ∈ rows, r.cost_Per_Unit ≤ first.row.cost_Per_Unit)
          ∧ first.allocated_From_Inv = min first.row.allocated_Units avail := by
  have hperm := List.mergeSort_perm rows
    (fun a b => decide (b.cost_Per_Unit ≤ a.cost_Per_Unit))
  have hq2 : ∀ r ∈ sortByCostDesc rows, 0 ≤ r.allocated_Units := by
    intro r hr
    refine hq r ?_
    unfold sortByCostDesc at hr
    exact hperm.mem_iff.mp hr
  have heq : apply_inventory_deduction avail rows
      = specGreedyDeduct avail (sortByCostDesc rows) := by
    unfold apply_inventory_deduction
    rw [if_pos hpos]
    exact greedyDeductLoop_eq_spec _ avail (le_of_lt hpos) hq2
  refine ⟨?_, heq, ?_⟩
  · rw [heq]
    exact totalFromInv_spec_le _ avail (le_of_lt hpos)
  · rcases sortByCostDesc_head_max rows hne with ⟨m, tail, hs, hmax⟩
    refine ⟨OffsetRow.mk m (min m.allocated_Units avail)
        (m.allocated_Units - min m.allocated_Units avail),
      specGreedyDeduct (avail - min m.allocated_Units avail) tail, ?_, hmax, rfl⟩
    rw [heq, hs]
    simp [specGreedyDeduct]

/-- Witness for C3: pool 10 over two rows of quantities 4 and 8 at costs 1
and 2. -/
theorem C3_greedy_cost_descending_witness :
    totalFromInv (apply_inventory_deduction 10 [PlanRow.mk 1 4, PlanRow.mk 2 8]) ≤ 10
      ∧ apply_inventory_deduction 10 [PlanRow.mk 1 4, PlanRow.mk 2 8]
          = specGreedyDeduct 10 (sortByCostDesc [PlanRow.mk 1 4, PlanRow.mk 2 8])
      ∧ ∃ first rest,
          apply_inventory_deduction 10 [PlanRow.mk 1 4, PlanRow.mk 2 8] = first :: rest
          ∧ (∀ r ∈ [PlanRow.mk 1 4, PlanRow.mk 2 8],
              r.cost_Per_Unit ≤ first.row.cost_Per_Unit)
          ∧ first.allocated_From_Inv = min first.row.allocated_Units 10 :=
  C3_greedy_cost_descending 10 [PlanRow.mk 1 4, PlanRow.mk 2 8]
    (by
      intro r hr
      rcases List.mem_cons.mp hr with rfl | hr2
      · norm_num
      · rcases List.mem_cons.mp hr2 with rfl | hr3
        · norm_num
        · simp at hr3)
    (by norm_num) (by simp)

/-! ## Claim C10 — the heuristic preserves plan quantities -/

/-- Every row the loop with the early break emits keeps
`From_Inv + Shipped` equal to the row's original quantity. -/
theorem greedyDeductLoop_preserves (l : List PlanRow) : ∀ avail : ℚ,
    ∀ e ∈ greedyDeductLoop avail l,
      e.allocated_From_Inv + e.allocated_Shipped = e.row.allocated_Units := by
  induction l with
  | nil => intro avail e he; simp [greedyDeductLoop] at he
  | cons r rest ih =>
      intro avail e he
      simp only [greedyDeductLoop] at he
      rcases List.mem_cons.mp he with rfl | hrest
      · simp
      · split at hrest
        · rcases List.mem_map.mp hrest with ⟨q, _, rfl⟩
          simp
        · exact ih _ e hrest

/-- The untouched rows of a defaults table carry zero inventory, so any
prefix sums to zero. -/
theorem totalFromInv_defaults_take (l : List PlanRow) (n : ℕ) :
    totalFromInv ((l.map (fun q => OffsetRow.mk q 0 q.allocated_Units)).take n) = 0 := by
  refine List.sum_eq_zero ?_
  intro x hx
  rcases List.mem_map.mp hx with ⟨e, he, rfl⟩
  rcases List.mem_map.mp (List.mem_of_mem_take he) with ⟨q, _, rfl⟩
  rfl

/-- Along the loop with the early break, every partial sum of assigned
inventory stays within the starting pool: the decremented pool never goes
negative. -/
theorem greedy_partial_le (l : List PlanRow) : ∀ avail : ℚ, 0 ≤ avail → ∀ n : ℕ,
    totalFromInv ((greedyDeductLoop avail l).take n) ≤ avail := by
  induction l with
  | nil => intro avail ha n; simpa [greedyDeductLoop, totalFromInv] using ha
  | cons r rest ih =>
      intro avail ha n
      cases n with
      | zero => simpa [totalFromInv] using ha
      | succ m =>
          have hmin : min r.allocated_Units avail ≤ avail := min_le_right _ _
          simp only [greedyDeductLoop, List.take_succ_cons]
          by_cases hbr : avail - min r.allocated_Units avail ≤ 0
          · rw [if_pos hbr]
            have hz := totalFromInv_defaults_take rest m
            simp only [totalFromInv, List.map_cons, List.sum_cons] at hz ⊢
            linarith
          · rw [if_neg hbr]
            have hrec := ih (avail - min r.allocated_Units avail)
              (by linarith [not_le.mp hbr]) m
            simp only [totalFromInv, List.map_cons, List.sum_cons] at hrec ⊢
            linarith

/-- Claim C10: the heuristic never alters the plan's per-route
quantities — every emitted row satisfies
`Allocated_From_Inv + Allocated_Shipped = Allocated_Units` exactly — and
the decremented inventory pool never goes negative: every partial sum of
assigned inventory stays within the starting pool. -/
theorem C10_plan_quantity_preserved (avail : ℚ) (rows : List PlanRow)
    (h : 0 ≤ avail) :
    (∀ e ∈ apply_inventory_deduction avail rows,
        e.allocated_From_Inv + e.allocated_Shipped = e.row.allocated_Units)
      ∧ ∀ n : ℕ, totalFromInv ((apply_inventory_deduction avail rows).take n) ≤ avail := by
  unfold apply_inventory_deduction
  by_cases hpos : 0 < avail
  · rw [if_pos hpos]
    exact ⟨fun e he => greedyDeductLoop_preserves _ _ e he,
      fun n => greedy_partial_le _ _ (le_of_lt hpos) n⟩
  · rw [if_neg hpos]
    constructor
    · intro e he
      rcases List.mem_map.mp he with ⟨q, _, rfl⟩
      simp
    · intro n
      rw [totalFromInv_defaults_take]
      exact h

/-- Witness for C10: pool 5 over a single row of quantity 3. -/
theorem C10_plan_quantity_preserved_witness :
    (∀ e ∈ apply_inventory_deduction 5 [PlanRow.mk 1 3],
        e.allocated_From_Inv + e.allocated_Shipped = e.row.allocated_Units)
      ∧ ∀ n : ℕ, totalFromInv ((apply_inventory_deduction 5 [PlanRow.mk 1 3]).take n) ≤ 5 :=
  C10_plan_quantity_preserved 5 [PlanRow.mk 1 3] (by norm_num)
